import Mathlib

/- Verification of the link-relevance core of a pair of Go web-scraper
programs (a webhook-notifying variant and an email-notifying variant).
The HTML document model and the URL model below are shallow embeddings of
the collaborators the scraper code uses: goquery selections over a parsed
HTML tree, and the Go net/url package (Parse, ResolveReference, String)
restricted to the escape-free inputs the scraper manipulates.  The
functions resolveURL, findClosestLink, findLinksForText and checkCycle are
direct translations of the Go functions of the same names. -/

set_option autoImplicit false
set_option maxRecDepth 4000

/-! String helpers modelling the Go strings package on ASCII input. -/

/-- Model of Go strings.ToLower for a single ASCII character. -/
def toLowerChar (c : Char) : Char :=
  if 'A' ≤ c ∧ c ≤ 'Z' then Char.ofNat (c.toNat + 32) else c

/-- Model of Go strings.ToLower restricted to ASCII case mapping. -/
def toLowerStr (s : String) : String :=
  String.mk (s.data.map toLowerChar)

/-- Model of Go strings.Contains on character lists. -/
def strContainsAux : List Char → List Char → Bool
  | _, [] => true
  | [], _ :: _ => false
  | c :: rest, sub => List.isPrefixOf sub (c :: rest) || strContainsAux rest sub

/-- Model of Go strings.Contains: does s contain sub as a substring. -/
def strContains (s sub : String) : Bool :=
  strContainsAux s.data sub.data

/-- Split at the first occurrence of sep: model of the cutc split of
net/url.  Absent separator gives the whole input and an empty remainder. -/
def splitOnceL (sep : Char) : List Char → List Char × List Char
  | [] => ([], [])
  | c :: cs =>
    if c = sep then ([], cs)
    else
      let r := splitOnceL sep cs
      (c :: r.1, r.2)

/-- Split a character list on every occurrence of sep, keeping empty
segments, as Go strings.Split does. -/
def splitChar (sep : Char) : List Char → List (List Char)
  | [] => [[]]
  | c :: cs =>
    let r := splitChar sep cs
    if c = sep then [] :: r
    else
      match r with
      | h :: t => (c :: h) :: t
      | [] => [[c]]

/-- Index of the last occurrence of a character, if any. -/
def lastIdxOf (c : Char) : List Char → Option Nat
  | [] => none
  | a :: as =>
    match lastIdxOf c as with
    | some i => some (i + 1)
    | none => if a = c then some 0 else none

/-- The part of the list before the first occurrence of sep (the whole
list when sep is absent), as Go strings.Cut returns it. -/
def beforeFirst (sep : Char) (l : List Char) : List Char :=
  (splitOnceL sep l).1

/-- base up to and including its last slash; empty when base has no
slash.  Models the base[:i+1] step of net/url resolvePath. -/
def upToLastSlash (l : List Char) : List Char :=
  match lastIdxOf '/' l with
  | none => []
  | some i => l.take (i + 1)

/-! Model of the Go net/url package: the URL record, Parse,
resolvePath, ResolveReference and String.  Percent-escape validation and
the userinfo subfield are elided (the authority is kept whole in host),
so the model is exact on the escape-free, userinfo-free URLs the scraper
handles. -/

/-- Model of net/url URL.  opq is the opaque part of a rootless
scheme:path URL (named Opaque in Go). -/
structure GoURL where
  scheme : String
  opq : String
  host : String
  path : String
  rawQuery : String
  forceQuery : Bool
  fragment : String
  deriving DecidableEq

def emptyGoURL : GoURL := ⟨"", "", "", "", "", false, ""⟩

def isCtlChar (c : Char) : Bool := c.toNat < 32 || c.toNat == 127

def isAlphaChar (c : Char) : Bool :=
  ('a' ≤ c && c ≤ 'z') || ('A' ≤ c && c ≤ 'Z')

def isDigitChar (c : Char) : Bool := '0' ≤ c && c ≤ '9'

/-- Model of net/url getScheme.  Returns none on a missing protocol
scheme, some (scheme, rest) otherwise; a URL with no scheme at all gives
some with an empty scheme and the original input as rest. -/
def getSchemeCore (orig : List Char) : List Char → List Char → Option (List Char × List Char)
  | _, [] => some ([], orig)
  | acc, c :: cs =>
    if isAlphaChar c then getSchemeCore orig (acc ++ [c]) cs
    else if isDigitChar c || c == '+' || c == '-' || c == '.' then
      if acc = [] then some ([], orig) else getSchemeCore orig (acc ++ [c]) cs
    else if c == ':' then
      if acc = [] then none else some (acc, cs)
    else some ([], orig)

/-- Model of the state of the net/url resolvePath output builder. -/
structure RPState where
  dst : List Char
  first : Bool

/-- One segment step of net/url resolvePath. -/
def rpStep (st : RPState) (seg : List Char) : RPState :=
  if seg = ['.'] then { st with first := false }
  else if seg = ['.', '.'] then
    match lastIdxOf '/' st.dst with
    | none => { dst := [], first := true }
    | some i => { dst := st.dst.take i, first := st.first }
  else
    { dst := st.dst ++ (if st.first then [] else ['/']) ++ seg, first := false }

/-- Model of net/url resolvePath: merge a reference path into a base
path and remove dot segments. -/
def resolvePath (base ref : String) : String :=
  let full : List Char :=
    if ref = "" then base.data
    else if ref.data.head? ≠ some '/' then upToLastSlash base.data ++ ref.data
    else ref.data
  if full = [] then ""
  else
    let segs := splitChar '/' full
    let st := segs.foldl rpStep ⟨[], true⟩
    let lastSeg := (segs.getLast?).getD []
    let dst := if lastSeg = ['.'] ∨ lastSeg = ['.', '.'] then st.dst ++ ['/'] else st.dst
    let dst2 :=
      match dst with
      | c0 :: c1 :: rest => if c1 = '/' then c1 :: rest else c0 :: c1 :: rest
      | l => l
    String.mk dst2

/-- Model of net/url Parse.  Returns none exactly where the modelled Go
parser fails: a control character before the fragment, a missing
protocol scheme, or a colon in the first path segment of a scheme-less
URL. -/
def parseGoURL (rawURL : String) : Option GoURL :=
  let fragSplit := splitOnceL '#' rawURL.data
  let u := fragSplit.1
  let frag := String.mk fragSplit.2
  if u.any isCtlChar then none
  else if u = ['*'] then some { emptyGoURL with path := "*", fragment := frag }
  else
    match getSchemeCore u [] u with
    | none => none
    | some (schemeChars, rest0) =>
      let scheme := String.mk (schemeChars.map toLowerChar)
      let qSplit :=
        if rest0.getLast? = some '?' ∧ ¬ (rest0.dropLast.contains '?') then
          (rest0.dropLast, ([] : List Char), true)
        else
          let p := splitOnceL '?' rest0
          (p.1, p.2, false)
      let rest := qSplit.1
      let rawQuery := String.mk qSplit.2.1
      let forceQuery := qSplit.2.2
      if rest.head? ≠ some '/' then
        if scheme ≠ "" then
          some { scheme := scheme, opq := String.mk rest, host := "", path := "",
                 rawQuery := rawQuery, forceQuery := forceQuery, fragment := frag }
        else if (beforeFirst '/' rest).contains ':' then none
        else
          some { scheme := scheme, opq := "", host := "", path := String.mk rest,
                 rawQuery := rawQuery, forceQuery := forceQuery, fragment := frag }
      else
        if (scheme ≠ "" ∨ rest.take 3 ≠ ['/', '/', '/']) ∧ rest.take 2 = ['/', '/'] then
          let after := rest.drop 2
          let auth := beforeFirst '/' after
          let rest2 := if after.contains '/' then '/' :: (splitOnceL '/' after).2 else []
          some { scheme := scheme, opq := "", host := String.mk auth,
                 path := String.mk rest2, rawQuery := rawQuery,
                 forceQuery := forceQuery, fragment := frag }
        else
          some { scheme := scheme, opq := "", host := "", path := String.mk rest,
                 rawQuery := rawQuery, forceQuery := forceQuery, fragment := frag }

/-- Model of net/url URL.ResolveReference. -/
def resolveRef (base ref : GoURL) : GoURL :=
  let start : GoURL :=
    { ref with scheme := if ref.scheme = "" then base.scheme else ref.scheme }
  if ref.scheme ≠ "" ∨ ref.host ≠ "" then
    { start with path := resolvePath ref.path "" }
  else if ref.opq ≠ "" then
    { start with host := "", path := "" }
  else
    let inheritQF := ref.path = "" ∧ ¬ ref.forceQuery ∧ ref.rawQuery = ""
    { start with
      host := base.host,
      rawQuery := if inheritQF then base.rawQuery else ref.rawQuery,
      fragment := if inheritQF ∧ ref.fragment = "" then base.fragment else ref.fragment,
      path := resolvePath base.path ref.path }

/-- Model of net/url URL.String. -/
def urlToString (u : GoURL) : String :=
  let schemePart := if u.scheme ≠ "" then u.scheme ++ ":" else ""
  let mainPart :=
    if u.opq ≠ "" then u.opq
    else
      let authPart :=
        if u.scheme ≠ "" ∨ u.host ≠ "" then
          (if u.host ≠ "" ∨ u.path ≠ "" then "//" else "") ++ u.host
        else ""
      let sepPart :=
        if u.path ≠ "" ∧ u.path.data.head? ≠ some '/' ∧ u.host ≠ "" then "/" else ""
      let dotPart :=
        if schemePart = "" ∧ authPart = "" ∧ (beforeFirst '/' u.path.data).contains ':' then
          "./"
        else ""
      authPart ++ sepPart ++ dotPart ++ u.path
  let queryPart := if u.forceQuery ∨ u.rawQuery ≠ "" then "?" ++ u.rawQuery else ""
  let fragPart := if u.fragment ≠ "" then "#" ++ u.fragment else ""
  schemePart ++ mainPart ++ queryPart ++ fragPart

/-! Model of the parsed HTML document and the goquery operations the
scraper uses.  A document is a tree of element and text nodes; goquery
selections are represented by the list of paths (child-index lists) of
the selected elements, in document (pre-order) order. -/

mutual
inductive HNode : Type where
  | elem : String → List (String × String) → HForest → HNode
  | txt : String → HNode

inductive HForest : Type where
  | fnil : HForest
  | fcons : HNode → HForest → HForest
end

def HForest.ofList : List HNode → HForest
  | [] => .fnil
  | n :: ns => .fcons n (HForest.ofList ns)

mutual
/-- Full descendant-inclusive text of a node: model of goquery Text(). -/
def HNode.fullText : HNode → String
  | .txt s => s
  | .elem _ _ cs => HForest.fullTextF cs

def HForest.fullTextF : HForest → String
  | .fnil => ""
  | .fcons n t => HNode.fullText n ++ HForest.fullTextF t
end

/-- Concatenated text of the immediate text-node children only. -/
def HForest.directTextF : HForest → String
  | .fnil => ""
  | .fcons (HNode.txt s) t => s ++ HForest.directTextF t
  | .fcons (HNode.elem _ _ _) t => HForest.directTextF t

/-- Direct text of a node, excluding descendant-element text: model of
the Clone-Children-Remove-End-Text idiom of the Go code. -/
def HNode.directText : HNode → String
  | .txt s => s
  | .elem _ _ cs => HForest.directTextF cs

def HForest.get? : HForest → Nat → Option HNode
  | .fnil, _ => none
  | .fcons n _, 0 => some n
  | .fcons _ t, i + 1 => HForest.get? t i

/-- Node reached from a root by a list of child indices. -/
def HNode.getAt? : HNode → List Nat → Option HNode
  | n, [] => some n
  | HNode.txt _, _ :: _ => none
  | HNode.elem _ _ cs, i :: p =>
    match cs.get? i with
    | some c => HNode.getAt? c p
    | none => none

mutual
/-- Paths of all proper descendant elements of a node, in pre-order
(document order). -/
def HNode.descPaths : HNode → List (List Nat)
  | .txt _ => []
  | .elem _ _ cs => HForest.descPathsF 0 cs

def HForest.descPathsF : Nat → HForest → List (List Nat)
  | _, .fnil => []
  | i, .fcons (HNode.txt _) t => HForest.descPathsF (i + 1) t
  | i, .fcons (HNode.elem _ _ gcs) t =>
    ([i] :: (HForest.descPathsF 0 gcs).map (fun q => i :: q)) ++ HForest.descPathsF (i + 1) t
end

/-- First attribute value for a key: model of goquery Attr on a single
node (the html parser keeps the first of duplicate attributes). -/
def getAttr (attrs : List (String × String)) (key : String) : Option String :=
  match attrs with
  | [] => none
  | (k, v) :: rest => if k = key then some v else getAttr rest key

/-- The CSS selectors the scraper uses: a tag name, an
attribute-substring selector, or the universal selector. -/
inductive Sel : Type where
  | tagSel : String → Sel
  | attrContainsSel : String → String → Sel
  | univSel : Sel

/-- Model of cascadia matching for the three selector forms used. -/
def selMatches (n : HNode) : Sel → Bool
  | .tagSel t =>
    match n with
    | .elem tg _ _ => tg == t
    | .txt _ => false
  | .attrContainsSel key val =>
    match n with
    | .elem _ attrs _ =>
      match getAttr attrs key with
      | some v => strContains v val
      | none => false
    | .txt _ => false
  | .univSel =>
    match n with
    | .elem _ _ _ => true
    | .txt _ => false

/-- Model of Document.Find: paths of all elements below the document
root matching the selector, in document order. -/
def findPaths (doc : HNode) (sel : Sel) : List (List Nat) :=
  (HNode.descPaths doc).filter fun p =>
    match HNode.getAt? doc p with
    | some n => selMatches n sel
    | none => false

/-- Model of goquery Parents(): paths of the element ancestors of the
element at p, nearest first, excluding the document root. -/
def parentPaths (p : List Nat) : List (List Nat) :=
  ((List.range p.length).map fun k => p.take (p.length - 1 - k)).filter fun q => q ≠ []

/-- Model of Find("a").First() followed by Attr("href"): the href of
the first descendant anchor of the element at p, if that anchor has
one. -/
def firstDescAnchorHref (doc : HNode) (p : List Nat) : Option String :=
  match HNode.getAt? doc p with
  | some n =>
    match ((HNode.descPaths n).filter fun q =>
        match HNode.getAt? n q with
        | some m => selMatches m (Sel.tagSel "a")
        | none => false).head? with
    | some q =>
      match HNode.getAt? n q with
      | some (HNode.elem _ attrs _) => getAttr attrs "href"
      | _ => none
    | none => none
  | none => none

/-- Concatenated full text of the body elements: the text the pipeline
matches the phrase against (doc.Find("body") then Text()). -/
def docBodyText (doc : HNode) : String :=
  String.join ((findPaths doc (Sel.tagSel "body")).map fun p =>
    match HNode.getAt? doc p with
    | some n => HNode.fullText n
    | none => "")

/-! Direct translations of the scraper functions of
src/web_scraper/main.go (the webhook variant). -/

/-- Translation of resolveURL (main.go lines 282-295). -/
def resolveURL (base : GoURL) (href : String) : String :=
  if href = "" then ""
  else
    match parseGoURL href with
    | none => ""
    | some parsed => urlToString (resolveRef base parsed)

/-- The href of the element at p when that element is an anchor that
has one: the guard of the first step of findClosestLink. -/
def selfAnchorHref (doc : HNode) (p : List Nat) : Option String :=
  match HNode.getAt? doc p with
  | some (HNode.elem tg attrs _) =>
    if tg = "a" then getAttr attrs "href" else none
  | _ => none

/-- Loop body of the ancestor-anchor scan of findClosestLink
(main.go lines 236-245). -/
def ancStep (doc : HNode) (base : GoURL) (found : String) (pp : List Nat) : String :=
  if found ≠ "" then found
  else
    match HNode.getAt? doc pp with
    | some (HNode.elem tg attrs _) =>
      if tg = "a" then
        match getAttr attrs "href" with
        | some h => resolveURL base h
        | none => found
      else found
    | _ => found

/-- Loop body of the ancestor-container scan of findClosestLink
(main.go lines 261-277). -/
def containerStep (doc : HNode) (base : GoURL) (found : String) (pp : List Nat) : String :=
  if found ≠ "" then found
  else
    match firstDescAnchorHref doc pp with
    | some h =>
      let resolved := resolveURL base h
      if strContains resolved "/products/" then resolved
      else if found = "" then resolved else found
    | none => found

/-- Translation of findClosestLink (main.go lines 226-280). -/
def findClosestLink (doc : HNode) (p : List Nat) (base : GoURL) : String :=
  match selfAnchorHref doc p with
  | some h => resolveURL base h
  | none =>
    let ps := parentPaths p
    let f1 := ps.foldl (ancStep doc base) ""
    if f1 ≠ "" then f1
    else
      let f2 :=
        match firstDescAnchorHref doc p with
        | some h => resolveURL base h
        | none => ""
      if f2 ≠ "" then f2
      else ps.foldl (containerStep doc base) ""

/-- The selector list of strategy 2 (main.go line 182). -/
def productSelectors : List Sel :=
  [Sel.tagSel "h1", Sel.tagSel "h2", Sel.tagSel "h3",
   Sel.attrContainsSel "class" "product", Sel.attrContainsSel "class" "item",
   Sel.attrContainsSel "id" "product"]

/-- Candidate resolutions produced by strategy 1 (main.go lines
161-177): anchors whose own text contains the phrase. -/
def anchorCandidates (doc : HNode) (base : GoURL) (phrase : String) : List String :=
  (findPaths doc (Sel.tagSel "a")).filterMap fun p =>
    match HNode.getAt? doc p with
    | some n =>
      if strContains (toLowerStr (HNode.fullText n)) phrase then
        match n with
        | HNode.elem _ attrs _ =>
          match getAttr attrs "href" with
          | some h => some (resolveURL base h)
          | none => none
        | HNode.txt _ => none
      else none
    | none => none

/-- Candidate links produced by strategy 2 (main.go lines 182-198):
elements matching the structural selectors whose full text contains the
phrase, sent through findClosestLink. -/
def selectorCandidates (doc : HNode) (base : GoURL) (phrase : String) : List String :=
  (productSelectors.map fun sel =>
    (findPaths doc sel).filterMap fun p =>
      match HNode.getAt? doc p with
      | some n =>
        if strContains (toLowerStr (HNode.fullText n)) phrase then
          some (findClosestLink doc p base)
        else none
      | none => none).flatten

/-- Candidate links produced by strategy 3 (main.go lines 201-217):
every element whose direct text contains the phrase, sent through
findClosestLink. -/
def starCandidates (doc : HNode) (base : GoURL) (phrase : String) : List String :=
  (findPaths doc Sel.univSel).filterMap fun p =>
    match HNode.getAt? doc p with
    | some n =>
      if strContains (toLowerStr (HNode.directText n)) phrase then
        some (findClosestLink doc p base)
      else none
    | none => none

/-- The sequence of candidate links the three strategies feed into the
shared deduplicating accumulator, in execution order. -/
def candidateStream (doc : HNode) (base : GoURL) (phrase : String) : List String :=
  anchorCandidates doc base phrase ++ selectorCandidates doc base phrase ++
    starCandidates doc base phrase

/-- The linkMap seen-set and the two priority-class accumulators of
findLinksForText. -/
structure Accum where
  seen : List String
  productLinks : List String
  otherLinks : List String

/-- The shared guard-and-insert step all three strategies perform
(main.go lines 166-174, 188-195, 207-215). -/
def addLink (a : Accum) (link : String) : Accum :=
  if link ≠ "" ∧ link ∉ a.seen then
    { seen := link :: a.seen,
      productLinks :=
        if strContains link "/products/" then a.productLinks ++ [link] else a.productLinks,
      otherLinks :=
        if strContains link "/products/" then a.otherLinks else a.otherLinks ++ [link] }
  else a

/-- Accumulator state after running all three strategies. -/
def extractAccum (doc : HNode) (base : GoURL) (phrase : String) : Accum :=
  (candidateStream doc base phrase).foldl addLink ⟨[], [], []⟩

/-- Translation of findLinksForText (main.go lines 139-224). -/
def findLinksForText (doc : HNode) (baseURL phrase : String) : List String :=
  match parseGoURL baseURL with
  | none => []
  | some base =>
    if strContains baseURL "/products/" && strContains (toLowerStr (docBodyText doc)) phrase then
      [baseURL]
    else
      let acc := extractAccum doc base phrase
      if acc.productLinks ≠ [] then acc.productLinks else acc.otherLinks

/-- Observable outcome of one check cycle after a successful fetch and
parse: the match flag, the link list handed to the notifier, and
whether the notifier was invoked. -/
structure CycleResult where
  matched : Bool
  links : List String
  notified : Bool
  deriving DecidableEq

/-- Translation of the post-parse part of checkWebsite (main.go lines
112-137): whole-page match gate, extraction, fallback, notification. -/
def checkCycle (doc : HNode) (websiteURL searchText : String) : CycleResult :=
  let pageText := docBodyText doc
  let searchTextLower := toLowerStr searchText
  if ¬ (strContains (toLowerStr pageText) searchTextLower = true) then
    { matched := false, links := [], notified := false }
  else
    let links := findLinksForText doc websiteURL searchTextLower
    if links ≠ [] then { matched := true, links := links, notified := true }
    else { matched := true, links := [websiteURL], notified := true }

/-! Direct translations of the scraper functions of
src/unnamed/part_001 (the email variant).  The extraction core of that
file (findLinksForText, findClosestLink, resolveURL, lines 161-317) is
translated separately here so that its relation to the webhook variant
can be stated and proved rather than assumed. -/

namespace EmailVariant

/-- Translation of resolveURL (part_001 lines 304-317). -/
def resolveURL (base : GoURL) (href : String) : String :=
  if href = "" then ""
  else
    match parseGoURL href with
    | none => ""
    | some parsed => urlToString (resolveRef base parsed)

/-- The href of the element at p when that element is an anchor that
has one. -/
def selfAnchorHref (doc : HNode) (p : List Nat) : Option String :=
  match HNode.getAt? doc p with
  | some (HNode.elem tg attrs _) =>
    if tg = "a" then getAttr attrs "href" else none
  | _ => none

/-- Loop body of the ancestor-anchor scan (part_001 lines 258-267). -/
def ancStep (doc : HNode) (base : GoURL) (found : String) (pp : List Nat) : String :=
  if found ≠ "" then found
  else
    match HNode.getAt? doc pp with
    | some (HNode.elem tg attrs _) =>
      if tg = "a" then
        match getAttr attrs "href" with
        | some h => resolveURL base h
        | none => found
      else found
    | _ => found

/-- Loop body of the ancestor-container scan (part_001 lines 283-299). -/
def containerStep (doc : HNode) (base : GoURL) (found : String) (pp : List Nat) : String :=
  if found ≠ "" then found
  else
    match firstDescAnchorHref doc pp with
    | some h =>
      let resolved := resolveURL base h
      if strContains resolved "/products/" then resolved
      else if found = "" then resolved else found
    | none => found

/-- Translation of findClosestLink (part_001 lines 248-302). -/
def findClosestLink (doc : HNode) (p : List Nat) (base : GoURL) : String :=
  match selfAnchorHref doc p with
  | some h => resolveURL base h
  | none =>
    let ps := parentPaths p
    let f1 := ps.foldl (ancStep doc base) ""
    if f1 ≠ "" then f1
    else
      let f2 :=
        match firstDescAnchorHref doc p with
        | some h => resolveURL base h
        | none => ""
      if f2 ≠ "" then f2
      else ps.foldl (containerStep doc base) ""

/-- The selector list of strategy 2 (part_001 line 204). -/
def productSelectors : List Sel :=
  [Sel.tagSel "h1", Sel.tagSel "h2", Sel.tagSel "h3",
   Sel.attrContainsSel "class" "product", Sel.attrContainsSel "class" "item",
   Sel.attrContainsSel "id" "product"]

/-- Candidate resolutions of strategy 1 (part_001 lines 183-199). -/
def anchorCandidates (doc : HNode) (base : GoURL) (phrase : String) : List String :=
  (findPaths doc (Sel.tagSel "a")).filterMap fun p =>
    match HNode.getAt? doc p with
    | some n =>
      if strContains (toLowerStr (HNode.fullText n)) phrase then
        match n with
        | HNode.elem _ attrs _ =>
          match getAttr attrs "href" with
          | some h => some (resolveURL base h)
          | none => none
        | HNode.txt _ => none
      else none
    | none => none

/-- Candidate links of strategy 2 (part_001 lines 204-220). -/
def selectorCandidates (doc : HNode) (base : GoURL) (phrase : String) : List String :=
  (productSelectors.map fun sel =>
    (findPaths doc sel).filterMap fun p =>
      match HNode.getAt? doc p with
      | some n =>
        if strContains (toLowerStr (HNode.fullText n)) phrase then
          some (findClosestLink doc p base)
        else none
      | none => none).flatten

/-- Candidate links of strategy 3 (part_001 lines 223-239). -/
def starCandidates (doc : HNode) (base : GoURL) (phrase : String) : List String :=
  (findPaths doc Sel.univSel).filterMap fun p =>
    match HNode.getAt? doc p with
    | some n =>
      if strContains (toLowerStr (HNode.directText n)) phrase then
        some (findClosestLink doc p base)
      else none
    | none => none

/-- Candidate sequence fed to the accumulator, in execution order. -/
def candidateStream (doc : HNode) (base : GoURL) (phrase : String) : List String :=
  anchorCandidates doc base phrase ++ selectorCandidates doc base phrase ++
    starCandidates doc base phrase

/-- The shared guard-and-insert step (part_001 lines 188-196, 210-217,
229-237). -/
def addLink (a : Accum) (link : String) : Accum :=
  if link ≠ "" ∧ link ∉ a.seen then
    { seen := link :: a.seen,
      productLinks :=
        if strContains link "/products/" then a.productLinks ++ [link] else a.productLinks,
      otherLinks :=
        if strContains link "/products/" then a.otherLinks else a.otherLinks ++ [link] }
  else a

/-- Accumulator state after running all three strategies. -/
def extractAccum (doc : HNode) (base : GoURL) (phrase : String) : Accum :=
  (candidateStream doc base phrase).foldl addLink ⟨[], [], []⟩

/-- Translation of findLinksForText (part_001 lines 161-246). -/
def findLinksForText (doc : HNode) (baseURL phrase : String) : List String :=
  match parseGoURL baseURL with
  | none => []
  | some base =>
    if strContains baseURL "/products/" && strContains (toLowerStr (docBodyText doc)) phrase then
      [baseURL]
    else
      let acc := extractAccum doc base phrase
      if acc.productLinks ≠ [] then acc.productLinks else acc.otherLinks

end EmailVariant

/-! Specification-side definitions used to state the claims. -/

/-- First non-empty string of a list, or the empty string. -/
def firstNonEmpty : List String → String
  | [] => ""
  | s :: rest => if s = "" then firstNonEmpty rest else s

/-- The resolution an ancestor contributes in the ancestor-anchor step:
its resolved href when it is an anchor that has one, else empty. -/
def ancResolve (doc : HNode) (base : GoURL) (pp : List Nat) : String :=
  match HNode.getAt? doc pp with
  | some (HNode.elem tg attrs _) =>
    if tg = "a" then
      match getAttr attrs "href" with
      | some h => resolveURL base h
      | none => ""
    else ""
  | _ => ""

/-- The resolution an ancestor contributes in the ancestor-container
step: the resolved href of its first descendant anchor, else empty. -/
def containerResolve (doc : HNode) (base : GoURL) (pp : List Nat) : String :=
  match firstDescAnchorHref doc pp with
  | some h => resolveURL base h
  | none => ""

/-- Priority-ordered description of closest-link resolution: self
anchor, then nearest-to-furthest ancestor anchors (empty resolutions
skipped), then the first descendant anchor, then the first non-empty
resolution among the first descendant anchors of the ancestors, nearest
ancestor first. -/
def closestLinkSpec (doc : HNode) (p : List Nat) (base : GoURL) : String :=
  match selfAnchorHref doc p with
  | some h => resolveURL base h
  | none =>
    let ps := parentPaths p
    let r2 := firstNonEmpty (ps.map (ancResolve doc base))
    if r2 ≠ "" then r2
    else
      let r3 :=
        match firstDescAnchorHref doc p with
        | some h => resolveURL base h
        | none => ""
      if r3 ≠ "" then r3
      else firstNonEmpty (ps.map (containerResolve doc base))

/-- Keep the first occurrence of each string not already in seen. -/
def dedupFirstAux (seen : List String) : List String → List String
  | [] => []
  | x :: xs =>
    if x ∈ seen then dedupFirstAux seen xs
    else x :: dedupFirstAux (x :: seen) xs

/-- Keep the first occurrence of each string. -/
def dedupFirst (l : List String) : List String := dedupFirstAux [] l

/-- Classification of a resolved URL: product-class iff it contains the
"/products/" segment. -/
def isProductLink (s : String) : Bool := strContains s "/products/"

/-- Whether the structural-heading scan (strategy 2) examines a node:
it matches at least one of the fixed selectors. -/
def matchedBySelectors (n : HNode) : Bool :=
  productSelectors.any fun sel => selMatches n sel

/-! Concrete documents and URLs used by witnesses and counterexamples. -/

/-- A document with the given body content, as the html parser produces
it: document root, html element, body element. -/
def mkDoc (body : List HNode) : HNode :=
  HNode.elem "#document" [] (HForest.ofList
    [HNode.elem "html" [] (HForest.ofList
      [HNode.elem "body" [] (HForest.ofList body)])])

/-- An anchor element with an href attribute and a text child. -/
def anch (href text : String) : HNode :=
  HNode.elem "a" [("href", href)] (HForest.ofList [HNode.txt text])

/-- Body text contains the phrase but the page has no anchors at all. -/
def w1doc : HNode := mkDoc [HNode.txt "blue widget available"]

/-- The same target URL reachable through two different anchors. -/
def w3doc : HNode := mkDoc [anch "/w" "blue widget", anch "/w" "blue widget deal"]

/-- One product-class and one other-class candidate. -/
def w4doc : HNode := mkDoc [anch "/products/1" "blue widget", anch "/elsewhere" "blue widget"]

/-- A product page body containing the phrase plus an unrelated anchor. -/
def w5doc : HNode := mkDoc [HNode.txt "blue widget in stock", anch "/other" "unrelated"]

def listBase : GoURL := (parseGoURL "https://x.test/list").getD emptyGoURL

/-- An anchor with an unresolvable href nested inside an anchor with a
good href. -/
def x7doc : HNode := mkDoc [HNode.elem "a" [("href", "/good")] (HForest.ofList
  [HNode.elem "a" [("href", "1:2")] (HForest.ofList [HNode.txt "widget"])])]

def x7base : GoURL := (parseGoURL "https://x.test/base").getD emptyGoURL

/-- An element whose id contains "item" (and that has no class), whose
full text contains the phrase only across two child elements, holding a
product anchor. -/
def x8div : HNode :=
  HNode.elem "div" [("id", "anitem")] (HForest.ofList
    [HNode.elem "b" [] (HForest.ofList [HNode.txt "blue "]),
     HNode.elem "i" [] (HForest.ofList [HNode.txt "widget"]),
     anch "/products/9" "go"])

def x8doc : HNode := mkDoc [x8div]

def c6base : GoURL := (parseGoURL "https://x.test/a/b?bq=1#bf").getD emptyGoURL

/-- Parsed form of the absolute href used in the C6 witness. -/
def c6absURL : GoURL := ⟨"https", "", "y.test", "/c/../d", "q=2", false, "fr"⟩

/-- Parsed form of the relative href used in the C6 witness. -/
def c6relURL : GoURL := ⟨"", "", "", "x/y", "q=3", false, "g"⟩

/-- Parsed form of the network-path href of the C6 counterexample. -/
def c6npURL : GoURL := ⟨"", "", "evil.example", "/p", "", false, ""⟩

/-! Theorems.  Each claim of the specification is settled by one
theorem below, with witnesses at concrete inputs where the theorem has
hypotheses and counterexamples where the claim as stated fails. -/

/-- C1: when the whole-page match succeeded and the extractor returned
an empty list, the final link list handed to the notifier is exactly
the one-element list containing the base URL, and a matched cycle never
carries an empty link list. -/
theorem c1_matched_fallback (doc : HNode) (websiteURL searchText : String)
    (hm : strContains (toLowerStr (docBodyText doc)) (toLowerStr searchText) = true)
    (he : findLinksForText doc websiteURL (toLowerStr searchText) = []) :
    checkCycle doc websiteURL searchText =
      { matched := true, links := [websiteURL], notified := true } ∧
    ∀ (d : HNode) (w s : String),
      (checkCycle d w s).matched = true → (checkCycle d w s).links ≠ [] := by
  constructor
  · simp [checkCycle, hm, he]
  · intro d w s
    by_cases hc : strContains (toLowerStr (docBodyText d)) (toLowerStr s) = true
    · by_cases hl : findLinksForText d w (toLowerStr s) = []
      · simp [checkCycle, hc, hl]
      · simp [checkCycle, hc, hl]
    · simp [checkCycle, hc]

/-- C1 witness: a page whose body holds the phrase but yields no
candidate links notifies with exactly the base URL. -/
theorem c1_matched_fallback_witness :
    checkCycle w1doc "https://x.test/page" "Blue Widget" =
      { matched := true, links := ["https://x.test/page"], notified := true } :=
  (c1_matched_fallback w1doc "https://x.test/page" "Blue Widget"
    (by decide) (by decide)).1

/-- C2: when the case-insensitive whole-page substring test fails, the
cycle result is unmatched with an empty link list and the notifier is
not invoked. -/
theorem c2_no_match_no_notify (doc : HNode) (websiteURL searchText : String)
    (h : strContains (toLowerStr (docBodyText doc)) (toLowerStr searchText) = false) :
    checkCycle doc websiteURL searchText =
      { matched := false, links := [], notified := false } := by
  simp [checkCycle, h]

/-- C2 witness: a phrase absent from the body text produces an
unmatched, unnotified cycle. -/
theorem c2_no_match_no_notify_witness :
    checkCycle w1doc "https://x.test/page" "Red Gadget" =
      { matched := false, links := [], notified := false } :=
  c2_no_match_no_notify w1doc "https://x.test/page" "Red Gadget" (by decide)

/-- C5: when the base URL parses, contains the "/products/" segment,
and the lower-cased body text contains the phrase, the extractor
returns exactly the one-element list containing the base URL, whatever
anchors the document holds. -/
theorem c5_self_page_short_circuit (doc : HNode) (baseURL phrase : String) (u : GoURL)
    (hp : parseGoURL baseURL = some u)
    (hprod : strContains baseURL "/products/" = true)
    (hbody : strContains (toLowerStr (docBodyText doc)) phrase = true) :
    findLinksForText doc baseURL phrase = [baseURL] := by
  unfold findLinksForText
  rw [hp]
  simp [hprod, hbody]

/-- C5 witness: the product-detail base URL of the specification
example is returned alone despite an unrelated anchor on the page. -/
theorem c5_self_page_short_circuit_witness :
    findLinksForText w5doc "https://x.test/products/42" "in stock" =
      ["https://x.test/products/42"] :=
  c5_self_page_short_circuit w5doc "https://x.test/products/42" "in stock"
    ((parseGoURL "https://x.test/products/42").getD emptyGoURL)
    (by decide) (by decide) (by decide)

/-- C10: when the base URL string fails to parse, the extractor returns
the empty list for every document and phrase, and a matched cycle then
notifies with exactly that unparsable base URL as the single link. -/
theorem c10_unparsable_base (doc : HNode) (websiteURL phrase searchText : String)
    (hp : parseGoURL websiteURL = none) :
    findLinksForText doc websiteURL phrase = [] ∧
    (strContains (toLowerStr (docBodyText doc)) (toLowerStr searchText) = true →
      checkCycle doc websiteURL searchText =
        { matched := true, links := [websiteURL], notified := true }) := by
  have h0 : ∀ q : String, findLinksForText doc websiteURL q = [] := by
    intro q
    unfold findLinksForText
    rw [hp]
  refine ⟨h0 phrase, fun hm => ?_⟩
  simp [checkCycle, hm, h0]

/-- C10 witness: the unparsable base URL "1:2" still reaches the
notifier as the single fallback link. -/
theorem c10_unparsable_base_witness :
    findLinksForText w1doc "1:2" "blue widget" = [] ∧
    checkCycle w1doc "1:2" "blue widget" =
      { matched := true, links := ["1:2"], notified := true } := by
  have h := c10_unparsable_base w1doc "1:2" "blue widget" "blue widget" (by decide)
  exact ⟨h.1, h.2 (by decide)⟩

/-- Every element of a dedupFirstAux run avoids the ambient seen set. -/
theorem mem_dedupFirstAux : ∀ (l seen : List String) (x : String),
    x ∈ dedupFirstAux seen l → x ∉ seen := by
  intro l
  induction l with
  | nil =>
    intro seen x hx
    simp [dedupFirstAux] at hx
  | cons a as ih =>
    intro seen x hx
    by_cases ha : a ∈ seen
    · simp only [dedupFirstAux, if_pos ha] at hx
      exact ih seen x hx
    · simp only [dedupFirstAux, if_neg ha] at hx
      rcases List.mem_cons.mp hx with h | h
      · subst h
        exact ha
      · intro hxs
        exact ih (a :: seen) x h (List.mem_cons_of_mem a hxs)

/-- dedupFirstAux produces a list without duplicates. -/
theorem nodup_dedupFirstAux : ∀ (l seen : List String), (dedupFirstAux seen l).Nodup := by
  intro l
  induction l with
  | nil =>
    intro seen
    simp [dedupFirstAux]
  | cons a as ih =>
    intro seen
    by_cases ha : a ∈ seen
    · simp only [dedupFirstAux, if_pos ha]
      exact ih seen
    · simp only [dedupFirstAux, if_neg ha]
      refine List.nodup_cons.mpr ⟨?_, ih (a :: seen)⟩
      intro hmem
      exact mem_dedupFirstAux as (a :: seen) a hmem (List.mem_cons_self a seen)

/-- The guard-and-insert loop computes, for each priority class, the
first-occurrence deduplication of the non-empty candidates restricted
to that class, appended after what was already accumulated. -/
theorem foldl_addLink_char : ∀ (cs seen P O : List String),
    (cs.foldl addLink ⟨seen, P, O⟩).productLinks =
      P ++ (dedupFirstAux seen (cs.filter fun s => !(s == ""))).filter isProductLink ∧
    (cs.foldl addLink ⟨seen, P, O⟩).otherLinks =
      O ++ (dedupFirstAux seen (cs.filter fun s => !(s == ""))).filter fun s => !(isProductLink s) := by
  intro cs
  induction cs with
  | nil =>
    intro seen P O
    simp [dedupFirstAux]
  | cons c cs ih =>
    intro seen P O
    by_cases hc : c = ""
    · subst hc
      rw [List.foldl_cons,
        show addLink ⟨seen, P, O⟩ "" = ⟨seen, P, O⟩ from by simp [addLink],
        show (("" :: cs).filter fun s => !(s == "")) = cs.filter fun s => !(s == "") from by
          simp [List.filter_cons]]
      exact ih seen P O
    · by_cases hs : c ∈ seen
      · rw [List.foldl_cons,
          show addLink ⟨seen, P, O⟩ c = ⟨seen, P, O⟩ from by simp [addLink, hs],
          show ((c :: cs).filter fun s => !(s == "")) = c :: cs.filter fun s => !(s == "") from by
            simp [List.filter_cons, hc]]
        simp only [dedupFirstAux, if_pos hs]
        exact ih seen P O
      · rw [List.foldl_cons,
          show addLink ⟨seen, P, O⟩ c =
              ⟨c :: seen,
               if isProductLink c then P ++ [c] else P,
               if isProductLink c then O else O ++ [c]⟩ from by
            simp [addLink, hc, hs, isProductLink],
          show ((c :: cs).filter fun s => !(s == "")) = c :: cs.filter fun s => !(s == "") from by
            simp [List.filter_cons, hc]]
        simp only [dedupFirstAux, if_neg hs]
        rcases ih (c :: seen) (if isProductLink c then P ++ [c] else P)
          (if isProductLink c then O else O ++ [c]) with ⟨h1, h2⟩
        constructor
        · rw [h1]
          by_cases hp : isProductLink c = true
          · simp [List.filter_cons, hp, List.append_assoc]
          · simp only [Bool.not_eq_true] at hp
            simp [List.filter_cons, hp]
        · rw [h2]
          by_cases hp : isProductLink c = true
          · simp [List.filter_cons, hp]
          · simp only [Bool.not_eq_true] at hp
            simp [List.filter_cons, hp, List.append_assoc]

/-- The two accumulator classes are the product-class and other-class
restrictions of the first-occurrence deduplication of the non-empty
candidate stream. -/
theorem extractAccum_char (doc : HNode) (base : GoURL) (phrase : String) :
    (extractAccum doc base phrase).productLinks =
      (dedupFirst ((candidateStream doc base phrase).filter fun s => !(s == ""))).filter isProductLink ∧
    (extractAccum doc base phrase).otherLinks =
      (dedupFirst ((candidateStream doc base phrase).filter fun s => !(s == ""))).filter fun s => !(isProductLink s) := by
  have h := foldl_addLink_char (candidateStream doc base phrase) [] [] []
  simpa [extractAccum, dedupFirst] using h

/-- In the non-short-circuit case the extractor returns the non-empty
priority class of the accumulator. -/
theorem findLinks_accum (doc : HNode) (baseURL phrase : String) (base : GoURL)
    (hp : parseGoURL baseURL = some base)
    (hsc : (strContains baseURL "/products/" &&
      strContains (toLowerStr (docBodyText doc)) phrase) = false) :
    findLinksForText doc baseURL phrase =
      if (extractAccum doc base phrase).productLinks ≠ [] then
        (extractAccum doc base phrase).productLinks
      else (extractAccum doc base phrase).otherLinks := by
  unfold findLinksForText
  rw [hp, hsc]
  simp

/-- C3: the extractor output never contains a duplicate URL, and in the
accumulating case it is exactly a first-occurrence deduplication of the
candidate stream restricted to the returned priority class, so each URL
appears once, at the position of its first discovery. -/
theorem c3_extractor_dedup :
    (∀ (doc : HNode) (baseURL phrase : String),
      (findLinksForText doc baseURL phrase).Nodup) ∧
    (∀ (doc : HNode) (baseURL phrase : String) (base : GoURL),
      parseGoURL baseURL = some base →
      (strContains baseURL "/products/" &&
        strContains (toLowerStr (docBodyText doc)) phrase) = false →
      findLinksForText doc baseURL phrase =
        (let once := dedupFirst ((candidateStream doc base phrase).filter fun s => !(s == ""));
         if once.filter isProductLink ≠ [] then once.filter isProductLink
         else once.filter fun s => !(isProductLink s))) := by
  constructor
  · intro doc baseURL phrase
    unfold findLinksForText
    cases hp : parseGoURL baseURL with
    | none => simp
    | some base =>
      by_cases hsc : (strContains baseURL "/products/" &&
          strContains (toLowerStr (docBodyText doc)) phrase) = true
      · rw [hsc]
        simp
      · simp only [Bool.not_eq_true] at hsc
        rw [hsc]
        simp only [Bool.false_eq_true, if_false]
        split
        · rw [(extractAccum_char doc base phrase).1]
          exact (nodup_dedupFirstAux _ _).filter _
        · rw [(extractAccum_char doc base phrase).2]
          exact (nodup_dedupFirstAux _ _).filter _
  · intro doc baseURL phrase base hp hsc
    rw [findLinks_accum doc baseURL phrase base hp hsc,
      (extractAccum_char doc base phrase).1, (extractAccum_char doc base phrase).2]

/-- C3 witness: the same target URL reachable through two anchors (and
rediscovered by the exhaustive strategy) appears exactly once. -/
theorem c3_extractor_dedup_witness :
    (findLinksForText w3doc "https://x.test/list" "blue widget").Nodup ∧
    findLinksForText w3doc "https://x.test/list" "blue widget" =
      (let once := dedupFirst ((candidateStream w3doc listBase "blue widget").filter fun s => !(s == ""));
       if once.filter isProductLink ≠ [] then once.filter isProductLink
       else once.filter fun s => !(isProductLink s)) ∧
    findLinksForText w3doc "https://x.test/list" "blue widget" = ["https://x.test/w"] := by
  refine ⟨c3_extractor_dedup.1 w3doc "https://x.test/list" "blue widget",
    c3_extractor_dedup.2 w3doc "https://x.test/list" "blue widget" listBase (by decide) (by decide),
    by decide⟩

/-- C4: every extractor result is homogeneous in priority class (so
every product-class URL trivially precedes every other-class URL), and
in the accumulating case the whole product class is returned whenever
it is non-empty, the other class only otherwise. -/
theorem c4_product_class_priority :
    (∀ (doc : HNode) (baseURL phrase : String),
      (∀ l ∈ findLinksForText doc baseURL phrase, isProductLink l = true) ∨
      (∀ l ∈ findLinksForText doc baseURL phrase, isProductLink l = false)) ∧
    (∀ (doc : HNode) (baseURL phrase : String) (base : GoURL),
      parseGoURL baseURL = some base →
      (strContains baseURL "/products/" &&
        strContains (toLowerStr (docBodyText doc)) phrase) = false →
      ((extractAccum doc base phrase).productLinks ≠ [] →
        findLinksForText doc baseURL phrase = (extractAccum doc base phrase).productLinks) ∧
      ((extractAccum doc base phrase).productLinks = [] →
        findLinksForText doc baseURL phrase = (extractAccum doc base phrase).otherLinks)) := by
  constructor
  · intro doc baseURL phrase
    unfold findLinksForText
    cases hp : parseGoURL baseURL with
    | none =>
      right
      simp
    | some base =>
      by_cases hsc : (strContains baseURL "/products/" &&
          strContains (toLowerStr (docBodyText doc)) phrase) = true
      · left
        rw [hsc]
        intro l hl
        simp at hl
        subst hl
        simpa [isProductLink] using ((Bool.and_eq_true _ _).mp hsc).1
      · simp only [Bool.not_eq_true] at hsc
        rw [hsc]
        simp only [Bool.false_eq_true, if_false]
        split
        · left
          intro l hl
          rw [(extractAccum_char doc base phrase).1] at hl
          exact (List.mem_filter.mp hl).2
        · right
          intro l hl
          rw [(extractAccum_char doc base phrase).2] at hl
          have h2 := (List.mem_filter.mp hl).2
          simpa using h2
  · intro doc baseURL phrase base hp hsc
    have h0 := findLinks_accum doc baseURL phrase base hp hsc
    constructor
    · intro hne
      rw [h0, if_pos hne]
    · intro he
      rw [h0, if_neg fun h => h he]

/-- C4 witness: with one product-class and one other-class candidate,
the result is exactly the product class. -/
theorem c4_product_class_priority_witness :
    ((extractAccum w4doc listBase "blue widget").productLinks ≠ [] →
      findLinksForText w4doc "https://x.test/list" "blue widget" =
        (extractAccum w4doc listBase "blue widget").productLinks) ∧
    (extractAccum w4doc listBase "blue widget").productLinks = ["https://x.test/products/1"] ∧
    (extractAccum w4doc listBase "blue widget").otherLinks = ["https://x.test/elsewhere"] ∧
    findLinksForText w4doc "https://x.test/list" "blue widget" = ["https://x.test/products/1"] := by
  refine ⟨(c4_product_class_priority.2 w4doc "https://x.test/list" "blue widget" listBase
    (by decide) (by decide)).1, by decide, by decide, by decide⟩

/-- A stop-at-first-success fold computes the first non-empty value of
the per-element function. -/
theorem foldl_firstlike {α : Type} (f : String → α → String) (g : α → String)
    (h1 : ∀ x, f "" x = g x) (h2 : ∀ (a : String) (x : α), a ≠ "" → f a x = a) :
    ∀ (l : List α) (a : String),
      l.foldl f a = if a = "" then firstNonEmpty (l.map g) else a := by
  intro l
  induction l with
  | nil =>
    intro a
    by_cases h : a = "" <;> simp [firstNonEmpty, h]
  | cons x xs ih =>
    intro a
    by_cases h : a = ""
    · subst h
      rw [List.foldl_cons, h1 x, ih (g x), List.map_cons]
      simp [firstNonEmpty]
    · rw [List.foldl_cons, h2 a x h, ih a, if_neg h, if_neg h]

theorem ancStep_empty (doc : HNode) (base : GoURL) (pp : List Nat) :
    ancStep doc base "" pp = ancResolve doc base pp := rfl

theorem ancStep_ne (doc : HNode) (base : GoURL) (a : String) (pp : List Nat)
    (h : a ≠ "") : ancStep doc base a pp = a := by
  unfold ancStep
  rw [if_pos h]

theorem containerStep_empty (doc : HNode) (base : GoURL) (pp : List Nat) :
    containerStep doc base "" pp = containerResolve doc base pp := by
  unfold containerStep containerResolve
  rw [if_neg (by simp)]
  cases hfd : firstDescAnchorHref doc pp with
  | none => rfl
  | some h =>
    dsimp only
    by_cases hc : strContains (resolveURL base h) "/products/" = true
    · simp [hc]
    · simp only [Bool.not_eq_true] at hc
      simp [hc]

theorem containerStep_ne (doc : HNode) (base : GoURL) (a : String) (pp : List Nat)
    (h : a ≠ "") : containerStep doc base a pp = a := by
  unfold containerStep
  rw [if_pos h]

/-- C7 amended: closest-link resolution is the fixed priority chain:
the element itself an anchor with an href (whose resolution is returned
even when it is empty, ending the search); else the first non-empty
resolution among ancestor anchors, nearest first, empty resolutions
skipped; else the resolution of the first descendant anchor when
non-empty; else the first non-empty resolution among the first
descendant anchors of the ancestors, nearest ancestor first, with no
cross-ancestor product preference. -/
theorem c7_closest_link_order : ∀ (doc : HNode) (p : List Nat) (base : GoURL),
    findClosestLink doc p base = closestLinkSpec doc p base := by
  intro doc p base
  unfold findClosestLink closestLinkSpec
  cases hs : selfAnchorHref doc p with
  | some h => rfl
  | none =>
    dsimp only
    rw [foldl_firstlike (ancStep doc base) (ancResolve doc base)
        (ancStep_empty doc base) (fun a x ha => ancStep_ne doc base a x ha)
        (parentPaths p) "",
      foldl_firstlike (containerStep doc base) (containerResolve doc base)
        (containerStep_empty doc base) (fun a x ha => containerStep_ne doc base a x ha)
        (parentPaths p) "",
      if_pos rfl, if_pos rfl]

/-- C7 counterexample: the inner anchor has an href that resolves to
none, and an ancestor anchor has a well-formed href, yet the search
ends with no link instead of continuing through the chain. -/
theorem c7_closest_link_order_counterexample :
    selfAnchorHref x7doc [0, 0, 0, 0] = some "1:2" ∧
    resolveURL x7base "1:2" = "" ∧
    ancResolve x7doc x7base [0, 0, 0] = "https://x.test/good" ∧
    parentPaths [0, 0, 0, 0] = [[0, 0, 0], [0, 0], [0]] ∧
    findClosestLink x7doc [0, 0, 0, 0] x7base = "" := by
  refine ⟨by decide, by decide, by decide, by decide, by decide⟩

/-- C8 amended: the structural-heading scan examines exactly the
elements of heading levels 1-3, the elements whose class attribute
contains "product" or "item", and the elements whose id attribute
contains "product"; an id containing "item" is not among the scanned
selectors. -/
theorem c8_structural_scan_selectors :
    ∀ (tag : String) (attrs : List (String × String)) (cs : HForest),
    matchedBySelectors (HNode.elem tag attrs cs) =
      ((tag == "h1" || tag == "h2" || tag == "h3") ||
       (match getAttr attrs "class" with
        | some v => strContains v "product" || strContains v "item"
        | none => false) ||
       (match getAttr attrs "id" with
        | some v => strContains v "product"
        | none => false)) := by
  intro tag attrs cs
  unfold matchedBySelectors productSelectors
  simp only [List.any_cons, List.any_nil, selMatches, Bool.or_false]
  cases hc : getAttr attrs "class" <;> cases hi : getAttr attrs "id" <;>
    simp [Bool.or_assoc]

/-- C8 counterexample: an element whose id contains "item" and that has
no class attribute, whose full text contains the phrase and whose
closest link is a product anchor, is not examined, and the extractor
returns no link at all for the document. -/
theorem c8_structural_scan_selectors_counterexample :
    getAttr [("id", "anitem")] "id" = some "anitem" ∧
    strContains "anitem" "item" = true ∧
    getAttr [("id", "anitem")] "class" = none ∧
    HNode.getAt? x8doc [0, 0, 0] = some x8div ∧
    strContains (toLowerStr (HNode.fullText x8div)) "blue widget" = true ∧
    matchedBySelectors x8div = false ∧
    findClosestLink x8doc [0, 0, 0] listBase = "https://x.test/products/9" ∧
    findLinksForText x8doc "https://x.test/list" "blue widget" = [] := by
  refine ⟨by decide, by decide, by decide, by rfl, by decide, by decide, by decide, by decide⟩

/-- C9: the link-extraction cores of the two variants are
extensionally identical: findLinksForText, findClosestLink and
resolveURL of the email variant agree everywhere with those of the
webhook variant. -/
theorem c9_variants_equivalent :
    (∀ (doc : HNode) (baseURL phrase : String),
      EmailVariant.findLinksForText doc baseURL phrase = findLinksForText doc baseURL phrase) ∧
    (∀ (doc : HNode) (p : List Nat) (base : GoURL),
      EmailVariant.findClosestLink doc p base = findClosestLink doc p base) ∧
    (∀ (base : GoURL) (href : String),
      EmailVariant.resolveURL base href = resolveURL base href) :=
  ⟨fun _ _ _ => rfl, fun _ _ _ => rfl, fun _ _ => rfl⟩

/-- A parsed URL with an empty scheme has an empty opaque part: the
parser only fills opq in the rootless branch guarded by a non-empty
scheme. -/
theorem parse_scheme_empty_opq (h : String) (u : GoURL)
    (hp : parseGoURL h = some u) (hs : u.scheme = "") : u.opq = "" := by
  unfold parseGoURL at hp
  lift_lets at hp
  extract_lets fs ub fr esrc at hp
  split at hp
  next => exact Option.noConfusion hp
  next =>
    split at hp
    next =>
      simp only [Option.some.injEq] at hp
      subst hp
      rfl
    next =>
      cases hg : getSchemeCore ub [] ub with
      | none =>
        rw [hg] at hp
        exact Option.noConfusion hp
      | some pr =>
        obtain ⟨schemeChars, rest0⟩ := pr
        rw [hg] at hp
        dsimp only at hp
        repeat' split at hp
        all_goals try exact Option.noConfusion hp
        all_goals
          (simp only [Option.some.injEq] at hp
           subst hp
           first
           | rfl
           | simp_all)

/-- C6 amended: the resolver returns the empty result on an empty or
unparsable href; an absolute href (one with a scheme) is returned
unchanged aside from normalization (scheme lower-casing and dot-segment
removal); a relative href with no host of its own resolves to an
absolute URL sharing the base scheme and host, with its non-empty query
and fragment preserved.  (A scheme-relative href with its own host
inherits only the scheme.) -/
theorem c6_resolver_contract :
    (∀ b : GoURL, resolveURL b "" = "") ∧
    (∀ (b : GoURL) (href : String), parseGoURL href = none → resolveURL b href = "") ∧
    (∀ (b : GoURL) (href : String) (u : GoURL), parseGoURL href = some u → u.scheme ≠ "" →
      resolveURL b href = urlToString { u with path := resolvePath u.path "" }) ∧
    (∀ (b : GoURL) (href : String) (u : GoURL), href ≠ "" → parseGoURL href = some u →
      u.scheme = "" → u.host = "" →
      resolveURL b href = urlToString (resolveRef b u) ∧
      (resolveRef b u).scheme = b.scheme ∧
      (resolveRef b u).host = b.host ∧
      (u.rawQuery ≠ "" → (resolveRef b u).rawQuery = u.rawQuery) ∧
      (u.fragment ≠ "" → (resolveRef b u).fragment = u.fragment)) := by
  refine ⟨fun b => rfl, ?_, ?_, ?_⟩
  · intro b href hp
    unfold resolveURL
    by_cases hh : href = ""
    · rw [if_pos hh]
    · rw [if_neg hh, hp]
  · intro b href u hp hsch
    have hh : href ≠ "" := by
      intro he
      subst he
      have h0 : parseGoURL "" = some emptyGoURL := rfl
      rw [h0, Option.some.injEq] at hp
      subst hp
      exact hsch rfl
    unfold resolveURL
    rw [if_neg hh, hp]
    dsimp only
    have hrr : resolveRef b u = { u with path := resolvePath u.path "" } := by
      unfold resolveRef
      rw [if_pos (Or.inl hsch), if_neg hsch]
    rw [hrr]
  · intro b href u hh hp hs0 hh0
    have hopq : u.opq = "" := parse_scheme_empty_opq href u hp hs0
    have hrr : resolveRef b u =
        { scheme := b.scheme, opq := u.opq, host := b.host,
          path := resolvePath b.path u.path,
          rawQuery :=
            if u.path = "" ∧ ¬ u.forceQuery = true ∧ u.rawQuery = "" then b.rawQuery
            else u.rawQuery,
          forceQuery := u.forceQuery,
          fragment :=
            if (u.path = "" ∧ ¬ u.forceQuery = true ∧ u.rawQuery = "") ∧ u.fragment = "" then
              b.fragment
            else u.fragment } := by
      unfold resolveRef
      rw [if_neg (by simp [hs0, hh0]), if_neg (by simp [hopq]), if_pos hs0]
    refine ⟨?_, ?_, ?_, ?_, ?_⟩
    · unfold resolveURL
      rw [if_neg hh, hp]
    · rw [hrr]
    · rw [hrr]
    · intro hq
      rw [hrr]
      dsimp only
      rw [if_neg (by simp [hq])]
    · intro hf
      rw [hrr]
      dsimp only
      rw [if_neg (by simp [hf])]

/-- C6 counterexample: the scheme-relative href //evil.example/p is
relative (its parse has no scheme), yet resolving it against a base on
host x.test yields host evil.example, so a relative href does not
always share the base host. -/
theorem c6_resolver_counterexample :
    parseGoURL "//evil.example/p" = some c6npURL ∧
    c6npURL.scheme = "" ∧
    c6base.host = "x.test" ∧
    (resolveRef c6base c6npURL).host = "evil.example" ∧
    resolveURL c6base "//evil.example/p" = "https://evil.example/p" := by
  refine ⟨by decide, by decide, by decide, by decide, by decide⟩

/-- C6 witness: the amended resolver contract evaluated at concrete
hrefs against the base https URL: empty, unparsable, absolute with dot
segments, and relative with query and fragment. -/
theorem c6_resolver_contract_witness :
    resolveURL c6base "" = "" ∧
    (parseGoURL "1:2" = none ∧ resolveURL c6base "1:2" = "") ∧
    (parseGoURL "HTTPS://y.test/c/../d?q=2#fr" = some c6absURL ∧
      resolveURL c6base "HTTPS://y.test/c/../d?q=2#fr" = "https://y.test/d?q=2#fr") ∧
    (parseGoURL "x/y?q=3#g" = some c6relURL ∧
      resolveURL c6base "x/y?q=3#g" = "https://x.test/a/x/y?q=3#g" ∧
      (resolveRef c6base c6relURL).scheme = c6base.scheme ∧
      (resolveRef c6base c6relURL).host = c6base.host ∧
      (resolveRef c6base c6relURL).rawQuery = "q=3" ∧
      (resolveRef c6base c6relURL).fragment = "g") := by
  have h2 := c6_resolver_contract.2.1 c6base "1:2" (by decide)
  have h3 := c6_resolver_contract.2.2.1 c6base "HTTPS://y.test/c/../d?q=2#fr" c6absURL
    (by decide) (by decide)
  have h4 := c6_resolver_contract.2.2.2 c6base "x/y?q=3#g" c6relURL
    (by decide) (by decide) (by decide) (by decide)
  exact ⟨c6_resolver_contract.1 c6base,
    ⟨by decide, h2⟩,
    ⟨by decide, h3.trans (by decide)⟩,
    ⟨by decide, h4.1.trans (by decide), h4.2.1, h4.2.2.1,
      h4.2.2.2.1 (by decide), h4.2.2.2.2 (by decide)⟩⟩
